import Mathlib

attribute [local semireducible] Rat.inv Rat.mul Rat.add Rat.sub Rat.ofScientific

/-!
Verification of the audio source-separation core in `music_processor.py` and the
result-filtering fragment of `app.py`.

Modelling conventions (shallow embedding):
* Waveforms are `List ℚ` (numpy float arrays modelled in exact rational
  arithmetic); spectral magnitude and phase matrices are `List (List ℚ)`
  (rows indexed by frequency bin, as in `S[k, t]`).
* The external librosa primitives (`librosa.load`, `librosa.effects.hpss`,
  `librosa.stft` composed with `magphase`/`np.angle`, and `librosa.istft`
  applied to `mag * exp(i*phase)`) are not code of this repository; they are
  abstracted as the fields of an `AudioLib` value.  Each may raise, modelled
  by `Except String`.  A Python exception is observable only through `str(e)`
  (every raise site in this code uses the bare `Exception` type), so
  exceptions are modelled as their message strings.
* The filesystem touched by `tempfile.mkdtemp`, `sf.write`, `os.path.exists`
  and `shutil.rmtree` is a simple `FS` state threaded explicitly.  The fresh
  directory name chosen by `mkdtemp` is a parameter of the call.
  `sf.write` itself is modelled as infallible.
* The Cloudinary uploader and its response object are abstracted as
  `Uploader` / `CloudResp`; `datetime.now()` is a string parameter.
-/

/-- Frequency of FFT bin `k`: `librosa.fft_frequencies(sr=22050)` with the
default `n_fft = 2048`, i.e. `k * sr / n_fft`.  The masks in the source index
bins `0 ≤ k ≤ 1024`. -/
def fft_frequencies (k : ℕ) : ℚ := (k : ℚ) * 22050 / 2048

/-- Vocals mask (`music_processor.py` lines 77-82): start from zeros, set the
bins with `80 < f < 4000` to `1.2`, then multiply the bins with
`150 < f < 3000` by `1.3`. -/
def vocal_mask (k : ℕ) : ℚ :=
  let f := fft_frequencies k
  let base : ℚ := if 80 < f ∧ f < 4000 then 6/5 else 0
  if 150 < f ∧ f < 3000 then base * (13/10) else base

/-- Drums mask (lines 96-101): start from ones, set bins with `f < 50` to
`0.3` and bins with `f > 5000` to `0.3`. -/
def drums_mask (k : ℕ) : ℚ :=
  let f := fft_frequencies k
  if f < 50 then 3/10 else if 5000 < f then 3/10 else 1

/-- Bass mask (lines 115-119): zeros, `(20, 250) ↦ 1.8`, then
`(20, 100)` multiplied by `1.2`. -/
def bass_mask (k : ℕ) : ℚ :=
  let f := fft_frequencies k
  let base : ℚ := if 20 < f ∧ f < 250 then 9/5 else 0
  if 20 < f ∧ f < 100 then base * (6/5) else base

/-- Guitar mask (lines 133-138): zeros, `(80, 2000) ↦ 1.4`, then
`(200, 1000)` multiplied by `1.2`. -/
def guitar_mask (k : ℕ) : ℚ :=
  let f := fft_frequencies k
  let base : ℚ := if 80 < f ∧ f < 2000 then 7/5 else 0
  if 200 < f ∧ f < 1000 then base * (6/5) else base

/-- Piano mask (lines 152-157): zeros, `(27, 4200) ↦ 0.8`, then
`(200, 2000)` multiplied by `1.3`. -/
def piano_mask (k : ℕ) : ℚ :=
  let f := fft_frequencies k
  let base : ℚ := if 27 < f ∧ f < 4200 then 4/5 else 0
  if 200 < f ∧ f < 2000 then base * (13/10) else base

/-- Flute mask (lines 171-175): zeros, `(250, 4200) ↦ 0.9`, then
`(1000, 3500)` multiplied by `1.4`. -/
def flute_mask (k : ℕ) : ℚ :=
  let f := fft_frequencies k
  let base : ℚ := if 250 < f ∧ f < 4200 then 9/10 else 0
  if 1000 < f ∧ f < 3500 then base * (7/5) else base

/-- Strings mask (lines 189-193): zeros, `(40, 3500) ↦ 0.9`, then
`(150, 1500)` multiplied by `1.3`. -/
def strings_mask (k : ℕ) : ℚ :=
  let f := fft_frequencies k
  let base : ℚ := if 40 < f ∧ f < 3500 then 9/10 else 0
  if 150 < f ∧ f < 1500 then base * (13/10) else base

/-- Background mask (lines 207-211): zeros, `f > 3000 ↦ 1.2`, then
`f > 5000` multiplied by `1.1`. -/
def bg_mask (k : ℕ) : ℚ :=
  let f := fft_frequencies k
  let base : ℚ := if 3000 < f then 6/5 else 0
  if 5000 < f then base * (11/10) else base

/-- Instrumental mask (lines 225-226): ones, then `f < 100` multiplied by
`0.5`. -/
def instr_mask (k : ℕ) : ℚ :=
  let f := fft_frequencies k
  if f < 100 then 1 * (1/2) else 1

/-- The result of `np.max(np.abs(audio))`: `none` when the array is empty
(numpy raises `ValueError` on a zero-size reduction), otherwise the maximum
absolute value. -/
def npMaxAbs : List ℚ → Option ℚ
  | [] => none
  | x :: xs => some (xs.foldl (fun m a => max m |a|) |x|)

/-- `MusicProcessor._normalize_audio` (lines 247-261): `max_val =
np.max(np.abs(audio))`; if `max_val > 0` return `audio * (target_level /
max_val)`, else return `audio` unchanged.  The source calls it with the
default `target_level = 0.95`.  `none` models the `ValueError` escaping from
`np.max` on an empty array. -/
def _normalize_audio (audio : List ℚ) (target_level : ℚ) : Option (List ℚ) :=
  match npMaxAbs audio with
  | none => none
  | some max_val =>
      if 0 < max_val then some (audio.map (fun a => a * (target_level / max_val)))
      else some audio

/-- Round to the nearest integer, ties to even (the rounding used by Python
`format(x, '.2f')` on the decimal scaled value). -/
def roundHalfEven (q : ℚ) : ℤ :=
  let f := ⌊q⌋
  if q - f < 1/2 then f
  else if 1/2 < q - f then f + 1
  else if f % 2 = 0 then f else f + 1

/-- Rendering of a nonnegative integer number of hundredths as `d.dd`. -/
def centsRender (a : ℕ) : String :=
  toString (a / 100) ++ "." ++ (if a % 100 < 10 then "0" else "") ++ toString (a % 100)

/-- Python `f"{q:.2f}"`: the value to two decimal places. -/
def fmt2 (q : ℚ) : String :=
  let c := roundHalfEven (q * 100)
  if c < 0 then "-" ++ centsRender (-c).toNat else centsRender c.toNat

/-- Message of the exception raised at line 57:
`f"Audio too short ({duration:.2f}s). Minimum 0.5 seconds required"`. -/
def tooShortMsg (duration : ℚ) : String :=
  "Audio too short (" ++ fmt2 duration ++ "s). Minimum 0.5 seconds required"

/-- Message of the wrapping exception raised at line 245:
`f"Audio processing failed: {str(e)}"`. -/
def wrapMsg (e : String) : String := "Audio processing failed: " ++ e

/-- A file written by `sf.write(path, samples, sr)`. -/
structure WavFile where
  samples : List ℚ
  sampleRate : ℕ
deriving DecidableEq

/-- The filesystem state visible to the pipeline. -/
structure FS where
  files : String → Option WavFile
  dirs : String → Bool

/-- `sf.write(p, w.samples, w.sampleRate)`: create or overwrite the file. -/
def FS.write (fs : FS) (p : String) (w : WavFile) : FS :=
  ⟨fun q => if q = p then some w else fs.files q, fs.dirs⟩

/-- Directory creation as performed by `tempfile.mkdtemp` (the fresh name is
supplied by the caller of the model). -/
def FS.mkdir (fs : FS) (d : String) : FS :=
  ⟨fs.files, fun q => if q = d then true else fs.dirs q⟩

/-- `shutil.rmtree(d)`: remove the directory and everything below it. -/
def FS.rmtree (fs : FS) (d : String) : FS :=
  ⟨fun q => if (d ++ "/").isPrefixOf q then none else fs.files q,
   fun q => if q = d || (d ++ "/").isPrefixOf q then false else fs.dirs q⟩

/-- An empty filesystem. -/
def emptyFS : FS := ⟨fun _ => none, fun _ => false⟩

/-- The external librosa surface used by `separate_audio_simple`.
`load` is `librosa.load(path, sr=22050)` returning the mono samples (the
returned `sr` is always 22050); `hpss` is `librosa.effects.hpss(y,
margin=2.0)`; `stft` returns the magnitude (`magphase(stft(y))[0]`) and the
phase angles (`np.angle(stft(y))`); `istft m p` is
`librosa.istft(m * np.exp(1j * p))`.  Any of them may raise. -/
structure AudioLib where
  load : String → Except String (List ℚ)
  hpss : List ℚ → Except String (List ℚ × List ℚ)
  stft : List ℚ → Except String (List (List ℚ) × List (List ℚ))
  istft : List (List ℚ) → List (List ℚ) → Except String (List ℚ)

/-- `S * mask[:, np.newaxis]`: scale row `k` of the magnitude matrix by
`mask k`; the first argument of the recursion is the index of the next row. -/
def applyMask (mask : ℕ → ℚ) : ℕ → List (List ℚ) → List (List ℚ)
  | _, [] => []
  | k, row :: rest => row.map (fun a => a * mask k) :: applyMask mask (k + 1) rest

/-- One stem body (repeated at lines 84-87, 103-106, ...): mask the source
magnitude, recombine with the source phase, invert, normalize with the
default target 0.95. -/
def synthStem (lib : AudioLib) (mask : ℕ → ℚ) (S phase : List (List ℚ)) :
    Except String (List ℚ) :=
  match lib.istft (applyMask mask 0 S) phase with
  | .error e => .error e
  | .ok y =>
      match _normalize_audio y (19/20) with
      | none => .error "zero-size array to reduction operation maximum which has no identity"
      | some z => .ok z

/-- The nine stems in source order; the boolean is `true` when the stem is
synthesized from the percussive component (`drums`, `instrumental`) and
`false` for the harmonic component. -/
def stemDefs : List (String × (ℕ → ℚ) × Bool) :=
  [("vocals", vocal_mask, false),
   ("drums", drums_mask, true),
   ("bass", bass_mask, false),
   ("guitar", guitar_mask, false),
   ("piano", piano_mask, false),
   ("flute", flute_mask, false),
   ("strings", strings_mask, false),
   ("background", bg_mask, false),
   ("instrumental", instr_mask, true)]

/-- The per-stem synthesize-and-write sequence of lines 75-235: for each stem
in order, synthesize from the matching component, write
`temp_dir/<name>.wav` at 22050 Hz, and record the path in the output dict;
the first exception aborts the remainder. -/
def writeStems (lib : AudioLib) (dir : String) (Sh ph Sp pp : List (List ℚ)) :
    FS → List (String × (ℕ → ℚ) × Bool) →
    Except String (List (String × String)) × FS
  | fs, [] => (.ok [], fs)
  | fs, (n, mask, perc) :: rest =>
    match synthStem lib mask (cond perc Sp Sh) (cond perc pp ph) with
    | .error e => (.error e, fs)
    | .ok y =>
        let path := dir ++ "/" ++ n ++ ".wav"
        let fs1 := fs.write path ⟨y, 22050⟩
        match writeStems lib dir Sh ph Sp pp fs1 rest with
        | (.ok d, fs2) => (.ok ((n, path) :: d), fs2)
        | (.error e, fs2) => (.error e, fs2)

/-- `MusicProcessor.separate_audio_simple` (lines 35-245): load at 22050 Hz,
check the decoded duration, make a temp dir, run HPSS, take both spectra,
synthesize and write the nine stems, and wrap any exception in
`Exception(f"Audio processing failed: {e}")`.  Returns the name→path dict and
the temp dir. -/
def separate_audio_simple (lib : AudioLib) (tempName : String) (fs : FS)
    (audio_path : String) :
    Except String (List (String × String) × String) × FS :=
  match lib.load audio_path with
  | .error e => (.error (wrapMsg e), fs)
  | .ok y =>
    let duration : ℚ := (y.length : ℚ) / 22050
    if duration < 1/2 then (.error (wrapMsg (tooShortMsg duration)), fs)
    else
      let temp_dir := tempName
      let fs1 := fs.mkdir temp_dir
      match lib.hpss y with
      | .error e => (.error (wrapMsg e), fs1)
      | .ok (yh, yp) =>
        match lib.stft yh with
        | .error e => (.error (wrapMsg e), fs1)
        | .ok (Sh, ph) =>
          match lib.stft yp with
          | .error e => (.error (wrapMsg e), fs1)
          | .ok (Sp, pp) =>
            match writeStems lib temp_dir Sh ph Sp pp fs1 stemDefs with
            | (.ok d, fs2) => (.ok (d, temp_dir), fs2)
            | (.error e, fs2) => (.error (wrapMsg e), fs2)

/-- The waveform `separate_audio_simple` computes for one stem, as a function
of the loaded samples only (load → hpss → stft of the matching component →
mask, phase recombination, inversion, normalization). -/
def stemSignal (lib : AudioLib) (y : List ℚ) (mask : ℕ → ℚ) (perc : Bool) :
    Except String (List ℚ) :=
  match lib.hpss y with
  | .error e => .error e
  | .ok (yh, yp) =>
    match lib.stft yh, lib.stft yp with
    | .error e, _ => .error e
    | .ok _, .error e => .error e
    | .ok (Sh, ph), .ok (Sp, pp) => synthStem lib mask (cond perc Sp Sh) (cond perc pp ph)

/-- A library value whose DSP primitives always succeed, with `istft`
returning a nonempty signal (what numpy delivers on any decoded input). -/
def AudioLib.Regular (lib : AudioLib) : Prop :=
  (∀ y, ∃ r, lib.hpss y = .ok r) ∧
  (∀ y, ∃ r, lib.stft y = .ok r) ∧
  (∀ m p, ∃ r, lib.istft m p = .ok r ∧ r ≠ [])

/-- Truthiness of a Python `str`-or-`None` value (`os.getenv`, `dict.get`):
`None` and the empty string are falsy. -/
def truthy : Option String → Bool
  | none => false
  | some s => !(s == "")

/-- The three Cloudinary environment variables read in
`MusicProcessor.__init__` (lines 22-33). -/
structure CloudConfig where
  cloud_name : Option String
  api_key : Option String
  api_secret : Option String

/-- `self.cloudinary_configured`: all three variables are set and truthy. -/
def cloudinary_configured (cfg : CloudConfig) : Bool :=
  truthy cfg.cloud_name && truthy cfg.api_key && truthy cfg.api_secret

/-- The `missing` list built at lines 281-287. -/
def missingVars (cfg : CloudConfig) : List String :=
  (if truthy cfg.cloud_name then [] else ["CLOUDINARY_CLOUD_NAME"]) ++
  (if truthy cfg.api_key then [] else ["CLOUDINARY_API_KEY"]) ++
  (if truthy cfg.api_secret then [] else ["CLOUDINARY_API_SECRET"])

/-- Whether `pat` occurs at the head of `s`. -/
def listStartsWith : List Char → List Char → Bool
  | [], _ => true
  | _ :: _, [] => false
  | a :: as, b :: bs => a == b && listStartsWith as bs

/-- Whether `pat` occurs anywhere in `s`. -/
def occursIn (pat : List Char) : List Char → Bool
  | [] => listStartsWith pat []
  | c :: rest => listStartsWith pat (c :: rest) || occursIn pat rest

/-- Python `pat in s` (substring containment). -/
def strContains (s pat : String) : Bool := occursIn pat.data s.data

/-- Python `str.lower()`. -/
def pyLower (s : String) : String := String.mk (s.data.map Char.toLower)

/-- The Cloudinary upload response dict, abstracted: the four fields the code
reads via `.get`, plus the string rendering Python would print for the whole
response object. -/
structure CloudResp where
  secure_url : Option String
  public_id : Option String
  format : Option String
  bytes : Option ℕ
  render : String
deriving DecidableEq

/-- The external `cloudinary.uploader.upload` call: file path and full public
id in, response or exception out. -/
structure Uploader where
  upload : String → String → Except String CloudResp

/-- The `except` clause of `upload_to_cloudinary` (lines 317-329): re-raise
with a classified message. -/
def classifyUploadError (e : String) : String :=
  if strContains (pyLower e) "authentication" then
    "Cloudinary authentication failed. Check your API credentials."
  else if strContains (pyLower e) "timeout" then
    "Upload timeout. File may be too large or connection too slow."
  else if strContains (pyLower e) "invalid" then
    "Invalid Cloudinary configuration: " ++ e
  else "Cloudinary upload failed: " ++ e

/-- `MusicProcessor.upload_to_cloudinary` (lines 263-329), with the default
`folder='music_separation'`: raise if unconfigured; inside the `try`, check
the file exists, call the uploader, and raise if the response has no truthy
`secure_url`; classify any exception from the `try` body. -/
def upload_to_cloudinary (up : Uploader) (cfg : CloudConfig) (fs : FS)
    (file_path public_id : String) : Except String CloudResp :=
  if !(cloudinary_configured cfg) then
    .error ("Cloudinary is not configured. Missing environment variables: " ++
      String.intercalate ", " (missingVars cfg) ++ ". Please set these in your .env file.")
  else
    let body : Except String CloudResp :=
      if (fs.files file_path).isNone then
        .error ("File does not exist: " ++ file_path)
      else
        match up.upload file_path ("music_separation/" ++ public_id) with
        | .error e => .error e
        | .ok r =>
            if !(truthy r.secure_url) then
              .error ("Upload successful but no URL returned. Response: " ++ r.render)
            else .ok r
    match body with
    | .ok r => .ok r
    | .error e => .error (classifyUploadError e)

/-- One value of the `results['stems']` mapping built in `process_and_upload`
(lines 357-387): either the four response fields, or `url: None` plus an
`error` message; absent dict keys read back as `None` via `.get`. -/
structure StemEntry where
  url : Option String
  public_id : Option String
  format : Option String
  size : Option ℕ
  error : Option String
deriving DecidableEq

/-- The entry recorded for a failed stem: `{'url': None, 'error': e}`. -/
def failEntry (e : String) : StemEntry := ⟨none, none, none, none, some e⟩

/-- `f"{user_id}/{project_id}/{stem_name}_{datetime.now().timestamp()}"`;
the timestamp is the `now` parameter of the model. -/
def stemPublicId (user_id project_id stem_name now : String) : String :=
  user_id ++ "/" ++ project_id ++ "/" ++ stem_name ++ "_" ++ now

/-- The per-stem upload loop of `process_and_upload` (lines 357-387): for
each stem, if the file is missing record `File not found`, otherwise upload
and record either the response fields or the exception message; every
exception is caught per stem and the loop continues. -/
def uploadLoop (up : Uploader) (cfg : CloudConfig) (fs : FS)
    (user_id project_id now : String) :
    List (String × String) → List (String × StemEntry)
  | [] => []
  | (stem_name, stem_path) :: rest =>
    let entry : StemEntry :=
      if (fs.files stem_path).isNone then
        failEntry ("File not found: " ++ stem_path)
      else
        match upload_to_cloudinary up cfg fs stem_path
            (stemPublicId user_id project_id stem_name now) with
        | .ok r => ⟨r.secure_url, r.public_id, r.format, r.bytes, none⟩
        | .error e => failEntry e
    (stem_name, entry) :: uploadLoop up cfg fs user_id project_id now rest

/-- The `results` dict of `process_and_upload` (lines 351-355 and the loop). -/
structure UploadResults where
  stems : List (String × StemEntry)
  timestamp : String
  total_stems : ℕ

/-- `MusicProcessor.process_and_upload` (lines 331-399): run the separation;
on failure re-raise `Exception(f"Processing failed: {e}")` — the local
`temp_dir` was never assigned, so the `finally` clause skips the cleanup; on
success run the upload loop, then the `finally` clause removes the temp
directory. -/
def process_and_upload (lib : AudioLib) (up : Uploader) (cfg : CloudConfig)
    (tempName now : String) (fs : FS)
    (audio_file_path project_id user_id : String) :
    Except String UploadResults × FS :=
  match separate_audio_simple lib tempName fs audio_file_path with
  | (.error e, fs1) => (.error ("Processing failed: " ++ e), fs1)
  | (.ok (stems, temp_dir), fs1) =>
      let entries := uploadLoop up cfg fs1 user_id project_id now stems
      let fs2 := if fs1.dirs temp_dir then fs1.rmtree temp_dir else fs1
      (.ok ⟨entries, now, stems.length⟩, fs2)

/-- `format_stem_name` helper: Python `str.capitalize`. -/
def pyCapitalize (s : String) : String :=
  match s.data with
  | [] => ""
  | c :: cs => String.mk (c.toUpper :: cs.map Char.toLower)

/-- `format_stem_name` (lines 445-448): split on underscores, capitalize,
join with spaces. -/
def format_stem_name (stem_name : String) : String :=
  String.intercalate " " ((stem_name.splitOn "_").map pyCapitalize)

/-- The `emojis` dict of `get_instrument_emoji` (lines 423-436), in insertion
order. -/
def emojiTable : List (String × String) :=
  [("vocals", "🎤"), ("drums", "🥁"), ("bass", "🔊"), ("guitar", "🎸"),
   ("piano", "🎹"), ("flute", "🪶"), ("strings", "🎻"), ("instrumental", "🎺"),
   ("background", "✨"), ("ambience", "✨"), ("other", "🎼"), ("accompaniment", "🎶")]

/-- `get_instrument_emoji` (lines 420-442): first key contained in the
lowercased stem name wins, else the default note. -/
def get_instrument_emoji (stem_name : String) : String :=
  match emojiTable.find? (fun e => strContains (pyLower stem_name) e.1) with
  | some e => e.2
  | none => "🎵"

/-- One value of `formatted_results` in `app.py` `upload_song`
(lines 304-316). -/
structure FormattedStem where
  name : String
  emoji : String
  url : Option String
  public_id : Option String
  format : Option String
  size : Option ℕ
  error : Option String
deriving DecidableEq

/-- The `formatted_results` loop of `app.py` (lines 304-316): every stem is
included, failed ones keep their error field. -/
def format_results (rs : List (String × StemEntry)) : List (String × FormattedStem) :=
  rs.map (fun e =>
    (e.1, ⟨format_stem_name e.1, get_instrument_emoji e.1,
           e.2.url, e.2.public_id, e.2.format, e.2.size, e.2.error⟩))

/-- `successful_stems` in `app.py` (line 320): keep the stems whose `url` is
truthy. -/
def successful_stems (l : List (String × FormattedStem)) : List (String × FormattedStem) :=
  l.filter (fun e => truthy e.2.url)

/-- A concrete library whose load decodes every path to the given samples and
whose DSP primitives are total: hpss duplicates the signal, stft returns a
one-bin one-frame spectrum, istft returns a one-sample signal. -/
def totalLib (samples : List ℚ) : AudioLib :=
  ⟨fun _ => .ok samples, fun y => .ok (y, y),
   fun _ => .ok ([[1]], [[0]]), fun _ _ => .ok [1]⟩

/-- Library with 0.5 s of decoded audio (11025 samples at 22050 Hz). -/
def libHalfSec : AudioLib := totalLib (List.replicate 11025 0)

/-- Library decoding to 10804 samples, i.e. about 0.49 s. -/
def libShort : AudioLib := totalLib (List.replicate 10804 0)

/-- Library whose decoder raises `boom` on every path (a corrupt file). -/
def libDecodeFail : AudioLib :=
  ⟨fun _ => .error "boom", fun y => .ok (y, y),
   fun _ => .ok ([[1]], [[0]]), fun _ _ => .ok [1]⟩

/-- Library whose decoder succeeds with 0.5 s of audio but whose HPSS raises
`boom` (e.g. a numeric failure during separation). -/
def libHpssFail : AudioLib :=
  ⟨fun _ => .ok (List.replicate 11025 0), fun _ => .error "boom",
   fun _ => .ok ([[1]], [[0]]), fun _ _ => .ok [1]⟩

/-- A fully configured Cloudinary environment. -/
def cfgW : CloudConfig := ⟨some "cloud", some "key", some "secret"⟩

/-- A concrete stem file. -/
def wavW : WavFile := ⟨[1], 22050⟩

/-- A filesystem holding two stem files under `/t`. -/
def fsW : FS :=
  ⟨fun q => if q = "/t/vocals.wav" then some wavW
            else if q = "/t/drums.wav" then some wavW else none,
   fun q => q == "/t"⟩

/-- A concrete successful upload response. -/
def respW : CloudResp :=
  ⟨some "https://cdn.example/x.wav", some "music_separation/u/p/drums_now",
   some "wav", some 5, "resp"⟩

/-- An uploader that fails with a network error on the vocals file and
succeeds on everything else. -/
def upW : Uploader :=
  ⟨fun path _ => if path = "/t/vocals.wav" then .error "network down" else .ok respW⟩

/-- The stems dict for the upload-loop witness. -/
def stemsW : List (String × String) :=
  [("vocals", "/t/vocals.wav"), ("drums", "/t/drums.wav")]

theorem foldl_maxAbs_nonneg (xs : List ℚ) (b : ℚ) (hb : 0 ≤ b) :
    0 ≤ xs.foldl (fun m a => max m |a|) b := by
  induction xs generalizing b with
  | nil => exact hb
  | cons a l ih => exact ih (max b |a|) (le_trans hb (le_max_left _ _))

theorem foldl_maxAbs_scale (c : ℚ) (hc : 0 ≤ c) (xs : List ℚ) (b : ℚ) :
    (xs.map (fun a => a * c)).foldl (fun m a => max m |a|) (b * c) =
      (xs.foldl (fun m a => max m |a|) b) * c := by
  induction xs generalizing b with
  | nil => rfl
  | cons a l ih =>
      simp only [List.map_cons, List.foldl_cons]
      rw [abs_mul, abs_of_nonneg hc, ← max_mul_of_nonneg _ _ hc, ih]

theorem npMaxAbs_nonneg (x : List ℚ) (m : ℚ) (h : npMaxAbs x = some m) : 0 ≤ m := by
  cases x with
  | nil => simp [npMaxAbs] at h
  | cons a l =>
      simp only [npMaxAbs, Option.some.injEq] at h
      exact h ▸ foldl_maxAbs_nonneg l |a| (abs_nonneg a)

theorem npMaxAbs_scale (x : List ℚ) (m c : ℚ) (h : npMaxAbs x = some m) (hc : 0 ≤ c) :
    npMaxAbs (x.map (fun a => a * c)) = some (m * c) := by
  cases x with
  | nil => simp [npMaxAbs] at h
  | cons a l =>
      simp only [npMaxAbs, Option.some.injEq] at h
      simp only [List.map_cons, npMaxAbs, Option.some.injEq]
      rw [abs_mul, abs_of_nonneg hc, foldl_maxAbs_scale c hc, h]

theorem normalize_of_pos (x : List ℚ) (m t : ℚ) (h : npMaxAbs x = some m) (hm : 0 < m) :
    _normalize_audio x t = some (x.map (fun a => a * (t / m))) := by
  simp [_normalize_audio, h, hm]

theorem normalize_of_nonpos (x : List ℚ) (m t : ℚ) (h : npMaxAbs x = some m) (hm : ¬ 0 < m) :
    _normalize_audio x t = some x := by
  simp [_normalize_audio, h, hm]

theorem npMaxAbs_isSome_of_ne_nil (x : List ℚ) (hx : x ≠ []) : ∃ m, npMaxAbs x = some m := by
  cases x with
  | nil => exact absurd rfl hx
  | cons a l => exact ⟨_, rfl⟩

theorem normalize_total (x : List ℚ) (t : ℚ) (hx : x ≠ []) :
    ∃ z, _normalize_audio x t = some z := by
  obtain ⟨m, hm⟩ := npMaxAbs_isSome_of_ne_nil x hx
  by_cases h : 0 < m
  · exact ⟨_, normalize_of_pos x m t hm h⟩
  · exact ⟨_, normalize_of_nonpos x m t hm h⟩

theorem string_eq_of_data_eq {a b : String} (h : a.data = b.data) : a = b :=
  congrArg String.mk h

theorem str_data_append (a b : String) : (a ++ b).data = a.data ++ b.data := rfl

theorem path_inj (dir a b : String)
    (h : dir ++ "/" ++ a ++ ".wav" = dir ++ "/" ++ b ++ ".wav") : a = b := by
  have hd := congrArg String.data h
  simp only [str_data_append] at hd
  exact string_eq_of_data_eq
    (List.append_cancel_left (List.append_cancel_right hd))

theorem writeStems_ok_inv (lib : AudioLib) (dir : String) (Sh ph Sp pp : List (List ℚ)) :
    ∀ (defs : List (String × (ℕ → ℚ) × Bool)) (fs : FS) (d : List (String × String)) (fs2 : FS),
    writeStems lib dir Sh ph Sp pp fs defs = (.ok d, fs2) →
    (defs.map Prod.fst).Nodup →
    d = defs.map (fun e => (e.1, dir ++ "/" ++ e.1 ++ ".wav")) ∧
    (∀ e ∈ defs, ∃ w, synthStem lib e.2.1 (cond e.2.2 Sp Sh) (cond e.2.2 pp ph) = .ok w ∧
        fs2.files (dir ++ "/" ++ e.1 ++ ".wav") = some ⟨w, 22050⟩) ∧
    (∀ q, (∀ e ∈ defs, q ≠ dir ++ "/" ++ e.1 ++ ".wav") → fs2.files q = fs.files q) := by
  intro defs
  induction defs with
  | nil =>
      intro fs d fs2 h _
      simp only [writeStems, Prod.mk.injEq] at h
      obtain ⟨h1, h2⟩ := h
      refine ⟨by simpa using h1.symm, by simp, fun q _ => by rw [← h2]⟩
  | cons e rest ih =>
      obtain ⟨n, mask, perc⟩ := e
      intro fs d fs2 h hnd
      simp only [writeStems] at h
      split at h
      next e0 hsyn => simp at h
      next y hsyn =>
        split at h
        next dd g hrec =>
          simp only [Prod.mk.injEq, Except.ok.injEq] at h
          obtain ⟨hd, hg⟩ := h
          simp only [List.map_cons, List.nodup_cons] at hnd
          obtain ⟨hnmem, hndr⟩ := hnd
          obtain ⟨hdd, hread, hframe⟩ := ih _ _ _ hrec hndr
          subst hg
          constructor
          · rw [← hd, hdd]
            simp
          constructor
          · intro e' he'
            rcases List.mem_cons.mp he' with he' | he'
            · subst he'
              refine ⟨y, hsyn, ?_⟩
              rw [hframe]
              · simp [FS.write]
              · intro e2 he2 hqeq
                apply hnmem
                rw [path_inj dir n e2.1 hqeq]
                exact List.mem_map_of_mem Prod.fst he2
            · exact hread e' he'
          · intro q hq
            rw [hframe]
            · simp only [FS.write]
              rw [if_neg (hq (n, mask, perc) (List.mem_cons_self _ _))]
            · intro e2 he2
              exact hq e2 (List.mem_cons_of_mem _ he2)
        next e0 g hrec => simp at h

theorem writeStems_total (lib : AudioLib) (dir : String) (Sh ph Sp pp : List (List ℚ)) :
    ∀ (defs : List (String × (ℕ → ℚ) × Bool)) (fs : FS),
    (∀ e ∈ defs, ∃ w, synthStem lib e.2.1 (cond e.2.2 Sp Sh) (cond e.2.2 pp ph) = .ok w) →
    ∃ d fs2, writeStems lib dir Sh ph Sp pp fs defs = (.ok d, fs2) := by
  intro defs
  induction defs with
  | nil => exact fun fs _ => ⟨[], fs, rfl⟩
  | cons e rest ih =>
      obtain ⟨n, mask, perc⟩ := e
      intro fs hall
      obtain ⟨w, hw⟩ := hall (n, mask, perc) (List.mem_cons_self _ _)
      obtain ⟨d, fs2, hrec⟩ := ih (fs.write (dir ++ "/" ++ n ++ ".wav") ⟨w, 22050⟩)
        (fun e he => hall e (List.mem_cons_of_mem _ he))
      exact ⟨(n, dir ++ "/" ++ n ++ ".wav") :: d, fs2, by simp [writeStems, hw, hrec]⟩

theorem separate_load_error (lib : AudioLib) (t : String) (fs : FS) (p e : String)
    (h : lib.load p = .error e) :
    separate_audio_simple lib t fs p = (.error (wrapMsg e), fs) := by
  simp [separate_audio_simple, h]

theorem separate_too_short (lib : AudioLib) (t : String) (fs : FS) (p : String) (y : List ℚ)
    (hload : lib.load p = .ok y) (hd : (y.length : ℚ) / 22050 < 1/2) :
    separate_audio_simple lib t fs p =
      (.error (wrapMsg (tooShortMsg ((y.length : ℚ) / 22050))), fs) := by
  simp only [separate_audio_simple, hload]
  rw [if_pos hd]

theorem separate_ok_of_regular (lib : AudioLib) (t : String) (fs : FS) (p : String) (y : List ℚ)
    (hreg : lib.Regular) (hload : lib.load p = .ok y)
    (hdur : ¬ ((y.length : ℚ) / 22050 < 1/2)) :
    ∃ d g, separate_audio_simple lib t fs p = (.ok (d, t), g) := by
  obtain ⟨⟨yh, yp⟩, hh⟩ := hreg.1 y
  obtain ⟨⟨Sh, ph⟩, h1⟩ := hreg.2.1 yh
  obtain ⟨⟨Sp, pp⟩, h2⟩ := hreg.2.1 yp
  have hsynth : ∀ e ∈ stemDefs,
      ∃ w, synthStem lib e.2.1 (cond e.2.2 Sp Sh) (cond e.2.2 pp ph) = .ok w := by
    intro e _
    obtain ⟨r, hr, hne⟩ := hreg.2.2 (applyMask e.2.1 0 (cond e.2.2 Sp Sh)) (cond e.2.2 pp ph)
    obtain ⟨z, hz⟩ := normalize_total r (19/20) hne
    exact ⟨z, by simp [synthStem, hr, hz]⟩
  obtain ⟨d, fs2, hws⟩ := writeStems_total lib t Sh ph Sp pp stemDefs (fs.mkdir t) hsynth
  refine ⟨d, fs2, ?_⟩
  simp only [separate_audio_simple, hload]
  rw [if_neg hdur]
  simp only [hh, h1, h2, hws]

theorem separate_ok_inv (lib : AudioLib) (t : String) (fs : FS) (p : String)
    (d : List (String × String)) (dir : String) (g : FS)
    (h : separate_audio_simple lib t fs p = (.ok (d, dir), g)) :
    dir = t ∧ ∃ y, lib.load p = .ok y ∧ ¬ ((y.length : ℚ) / 22050 < 1/2) ∧
      d = stemDefs.map (fun e => (e.1, t ++ "/" ++ e.1 ++ ".wav")) ∧
      ∀ e ∈ stemDefs, ∃ w, stemSignal lib y e.2.1 e.2.2 = .ok w ∧
        g.files (t ++ "/" ++ e.1 ++ ".wav") = some ⟨w, 22050⟩ := by
  simp only [separate_audio_simple] at h
  split at h
  next e0 hload => simp at h
  next y hload =>
    split at h
    next hshort => simp at h
    next hshort =>
      split at h
      next e0 hh => simp at h
      next yh yp hh =>
        split at h
        next e0 h1 => simp at h
        next Sh ph h1 =>
          split at h
          next e0 h2 => simp at h
          next Sp pp h2 =>
            split at h
            next dd fs2 hws =>
              simp only [Prod.mk.injEq, Except.ok.injEq] at h
              obtain ⟨⟨hdd, hdir⟩, hg⟩ := h
              obtain ⟨hshape, hread, _⟩ :=
                writeStems_ok_inv lib t Sh ph Sp pp stemDefs (fs.mkdir t) dd fs2 hws (by decide)
              refine ⟨hdir.symm, y, hload, hshort, by rw [← hdd, hshape], ?_⟩
              intro e he
              obtain ⟨w, hsyn, hfile⟩ := hread e he
              exact ⟨w, by simp [stemSignal, hh, h1, h2, hsyn], by rw [← hg]; exact hfile⟩
            next e0 fs2 hws => simp at h

theorem uploadLoop_map_fst (up : Uploader) (cfg : CloudConfig) (fs : FS)
    (user_id project_id now : String) (stems : List (String × String)) :
    (uploadLoop up cfg fs user_id project_id now stems).map Prod.fst = stems.map Prod.fst := by
  induction stems with
  | nil => rfl
  | cons s rest ih =>
      obtain ⟨n, p⟩ := s
      simp only [uploadLoop, List.map_cons, ih]

theorem uploadLoop_mem_fail (up : Uploader) (cfg : CloudConfig) (fs : FS)
    (user_id project_id now : String) (stems : List (String × String)) (n p e : String)
    (hmem : (n, p) ∈ stems)
    (hex : (fs.files p).isNone = false)
    (hfail : upload_to_cloudinary up cfg fs p (stemPublicId user_id project_id n now) = .error e) :
    (n, failEntry e) ∈ uploadLoop up cfg fs user_id project_id now stems := by
  induction stems with
  | nil => simp at hmem
  | cons s rest ih =>
      obtain ⟨m, q⟩ := s
      rcases List.mem_cons.mp hmem with hh | hh
      · obtain ⟨rfl, rfl⟩ := Prod.mk.injEq .. ▸ hh
        simp only [uploadLoop, hex, Bool.false_eq_true, if_false, hfail]
        exact List.mem_cons_self _ _
      · exact List.mem_cons_of_mem _ (ih hh)

theorem uploadLoop_mem_ok (up : Uploader) (cfg : CloudConfig) (fs : FS)
    (user_id project_id now : String) (stems : List (String × String)) (n p : String)
    (r : CloudResp)
    (hmem : (n, p) ∈ stems)
    (hex : (fs.files p).isNone = false)
    (hok : upload_to_cloudinary up cfg fs p (stemPublicId user_id project_id n now) = .ok r) :
    (n, (⟨r.secure_url, r.public_id, r.format, r.bytes, none⟩ : StemEntry)) ∈
      uploadLoop up cfg fs user_id project_id now stems := by
  induction stems with
  | nil => simp at hmem
  | cons s rest ih =>
      obtain ⟨m, q⟩ := s
      rcases List.mem_cons.mp hmem with hh | hh
      · obtain ⟨rfl, rfl⟩ := Prod.mk.injEq .. ▸ hh
        simp only [uploadLoop, hex, Bool.false_eq_true, if_false, hok]
        exact List.mem_cons_self _ _
      · exact List.mem_cons_of_mem _ (ih hh)

theorem mem_assoc_unique {α β : Type} [DecidableEq α] :
    ∀ (l : List (α × β)), (l.map Prod.fst).Nodup →
      ∀ a b c, (a, b) ∈ l → (a, c) ∈ l → b = c := by
  intro l
  induction l with
  | nil => intro _ a b c hb; simp at hb
  | cons s rest ih =>
      intro hnd a b c hb hc
      simp only [List.map_cons, List.nodup_cons] at hnd
      rcases List.mem_cons.mp hb with hb1 | hb1 <;> rcases List.mem_cons.mp hc with hc1 | hc1
      · rw [← hb1] at hc1
        exact (Prod.mk.injEq .. ▸ hc1.symm).2
      · exfalso
        apply hnd.1
        rw [show s.1 = a from congrArg Prod.fst hb1.symm]
        exact List.mem_map_of_mem Prod.fst hc1
      · exfalso
        apply hnd.1
        rw [show s.1 = a from congrArg Prod.fst hc1.symm]
        exact List.mem_map_of_mem Prod.fst hb1
      · exact ih hnd.2 a b c hb1 hc1

/-- C2 (counterexample): on the empty waveform, `_normalize_audio` does not
return the input unchanged — `np.max(np.abs([]))` raises `ValueError`
(modelled as `none`), so the function raises, contradicting the claim that it
never raises for every waveform. -/
theorem c2_cex_empty : _normalize_audio [] (19/20) = none := rfl

/-- C2 (amended): for every waveform with a defined peak (every nonempty
waveform), `_normalize_audio` with target 0.95 returns without raising; when
the peak is positive the result is the input scaled by `0.95 / peak` and its
peak is exactly 0.95 (exact arithmetic); when the peak is zero the all-zero
input is returned unchanged.  There is no division by zero. -/
theorem c2_normalize_spec (x : List ℚ) (m : ℚ) (hm : npMaxAbs x = some m) :
    (∃ z, _normalize_audio x (19/20) = some z) ∧
    (0 < m → _normalize_audio x (19/20) = some (x.map (fun a => a * ((19/20) / m))) ∧
      npMaxAbs (x.map (fun a => a * ((19/20) / m))) = some (19/20)) ∧
    (m = 0 → _normalize_audio x (19/20) = some x) := by
  refine ⟨?_, ?_, ?_⟩
  · cases x with
    | nil => simp [npMaxAbs] at hm
    | cons a l => exact normalize_total _ _ (by simp)
  · intro hpos
    have hm0 : m ≠ 0 := ne_of_gt hpos
    refine ⟨normalize_of_pos x m _ hm hpos, ?_⟩
    rw [npMaxAbs_scale x m _ hm (div_nonneg (by norm_num) hpos.le)]
    congr 1
    field_simp
    ring
  · intro h0
    exact normalize_of_nonpos x m _ hm (by rw [h0]; exact lt_irrefl 0)

/-- C2 (witness): the two-sample waveform `[1/2, -2]` has peak 2; it is
scaled by `0.95 / 2` and the result peaks at exactly 0.95. -/
theorem c2_witness :
    npMaxAbs [(1 : ℚ)/2, -2] = some 2 ∧
    _normalize_audio [(1 : ℚ)/2, -2] (19/20) =
      some ([(1 : ℚ)/2, -2].map (fun a => a * ((19/20) / 2))) ∧
    npMaxAbs ([(1 : ℚ)/2, -2].map (fun a => a * ((19/20) / 2))) = some (19/20) := by
  have h : npMaxAbs [(1 : ℚ)/2, -2] = some 2 := by decide
  have h2 := c2_normalize_spec [(1 : ℚ)/2, -2] 2 h
  exact ⟨h, (h2.2.1 (by norm_num)).1, (h2.2.1 (by norm_num)).2⟩

/-- C10: normalization at target 0.95 is idempotent in exact arithmetic; a
second application (sequenced through the possible raise with `bind`) returns
exactly the result of the first. -/
theorem c10_normalize_idem (x : List ℚ) :
    (_normalize_audio x (19/20)).bind (fun y => _normalize_audio y (19/20)) =
      _normalize_audio x (19/20) := by
  cases hx : npMaxAbs x with
  | none =>
      cases x with
      | nil => rfl
      | cons a l => simp [npMaxAbs] at hx
  | some m =>
      by_cases hpos : 0 < m
      · have hm0 : m ≠ 0 := ne_of_gt hpos
        rw [normalize_of_pos x m _ hx hpos]
        have hs : npMaxAbs (x.map (fun a => a * ((19 : ℚ)/20 / m))) = some ((19 : ℚ)/20) := by
          rw [npMaxAbs_scale x m _ hx (div_nonneg (by norm_num) hpos.le)]
          congr 1
          field_simp
          ring
        simp only [Option.some_bind]
        rw [normalize_of_pos _ ((19 : ℚ)/20) _ hs (by norm_num)]
        congr 1
        rw [show ((19 : ℚ)/20) / ((19 : ℚ)/20) = 1 by norm_num]
        simp
      · rw [normalize_of_nonpos x m _ hx hpos]
        simp only [Option.some_bind]
        exact normalize_of_nonpos x m _ hx hpos

/-- C5: in the vocals mask the two band rules compose multiplicatively —
every bin with frequency in (150, 3000) Hz gets gain 1.2 · 1.3 = 1.56, every
other bin in (80, 4000) Hz gets 1.2, all remaining bins get 0; consequently
bin 325 (≈ 3499.1 Hz, the bin of a 3500 Hz partial) keeps gain 1.2 while bin
19 (≈ 204.6 Hz, the bin of a 200 Hz partial) keeps 1.56, so the 3500 Hz
content is attenuated more than the 200 Hz content relative to an unmasked
reference. -/
theorem c5_vocal_mask_composition :
    (∀ k : ℕ,
      vocal_mask k =
        if 150 < fft_frequencies k ∧ fft_frequencies k < 3000 then 39/25
        else if 80 < fft_frequencies k ∧ fft_frequencies k < 4000 then 6/5
        else 0) ∧
    vocal_mask 19 = 39/25 ∧ vocal_mask 325 = 6/5 ∧ vocal_mask 325 < vocal_mask 19 := by
  refine ⟨?_, by decide, by decide, by decide⟩
  intro k
  by_cases h1 : 150 < fft_frequencies k ∧ fft_frequencies k < 3000
  · have h2 : 80 < fft_frequencies k ∧ fft_frequencies k < 4000 :=
      ⟨by linarith [h1.1], by linarith [h1.2]⟩
    simp only [vocal_mask, h1, h2, and_self, if_true, if_pos]
    norm_num
  · by_cases h2 : 80 < fft_frequencies k ∧ fft_frequencies k < 4000 <;>
      simp [vocal_mask, h1, h2]

theorem totalLib_regular (s : List ℚ) : (totalLib s).Regular :=
  ⟨fun y => ⟨(y, y), rfl⟩, fun _ => ⟨([[1]], [[0]]), rfl⟩, fun _ _ => ⟨[1], rfl, by simp⟩⟩

/-- C4: when the decode succeeds and the DSP primitives are regular,
`separate_audio_simple` raises the wrapped too-short error exactly when the
decoded duration (computed from the decoded sample count at 22050 Hz, not
from metadata) is strictly below 0.5 s, and that error message carries the
measured duration formatted to two decimals. -/
theorem c4_duration_check (lib : AudioLib) (t : String) (fs : FS) (p : String) (y : List ℚ)
    (hreg : lib.Regular) (hload : lib.load p = .ok y) :
    (separate_audio_simple lib t fs p =
        (.error (wrapMsg (tooShortMsg ((y.length : ℚ) / 22050))), fs) ↔
      (y.length : ℚ) / 22050 < 1/2) ∧
    tooShortMsg ((y.length : ℚ) / 22050) =
      "Audio too short (" ++ fmt2 ((y.length : ℚ) / 22050) ++ "s). Minimum 0.5 seconds required" := by
  refine ⟨⟨?_, fun hd => separate_too_short lib t fs p y hload hd⟩, rfl⟩
  intro heq
  by_contra hnot
  obtain ⟨d, g, hok⟩ := separate_ok_of_regular lib t fs p y hreg hload hnot
  rw [hok] at heq
  simp at heq

/-- C4 (witness): a 10804-sample decode (≈ 0.49 s) trips the check and the
wrapped message renders the measured duration as 0.49; an 11025-sample decode
(exactly 0.5 s) does not produce the too-short error. -/
theorem c4_witness :
    (((List.replicate 10804 (0:ℚ)).length : ℚ) / 22050 < 1/2) ∧
    separate_audio_simple libShort "tmp" emptyFS "clip.mp3" =
      (.error (wrapMsg (tooShortMsg (((List.replicate 10804 (0:ℚ)).length : ℚ) / 22050))),
        emptyFS) ∧
    fmt2 (((List.replicate 10804 (0:ℚ)).length : ℚ) / 22050) = "0.49" ∧
    ¬ separate_audio_simple libHalfSec "tmp" emptyFS "clip.mp3" =
        (.error (wrapMsg (tooShortMsg (((List.replicate 11025 (0:ℚ)).length : ℚ) / 22050))),
          emptyFS) := by
  have hd : (((List.replicate 10804 (0:ℚ)).length : ℚ) / 22050 < 1/2) := by
    simp only [List.length_replicate]
    decide
  refine ⟨hd, ?_, by simp only [List.length_replicate]; decide, ?_⟩
  · exact ((c4_duration_check libShort "tmp" emptyFS "clip.mp3" _
      (totalLib_regular _) rfl).1).mpr hd
  · intro hcontra
    exact absurd (((c4_duration_check libHalfSec "tmp" emptyFS "clip.mp3" _
      (totalLib_regular _) rfl).1).mp hcontra)
      (by simp only [List.length_replicate]; decide)

/-- C1: for every library behavior with regular DSP primitives, every input
that decodes to at least 0.5 s of audio yields a successful separation whose
dict holds exactly the nine stem names in source order, and every written
stem file carries the analysis sample rate 22050 Hz. -/
theorem c1_nine_stems (lib : AudioLib) (t : String) (fs : FS) (p : String) (y : List ℚ)
    (hreg : lib.Regular) (hload : lib.load p = .ok y)
    (hdur : (1/2 : ℚ) ≤ (y.length : ℚ) / 22050) :
    ∃ d, (separate_audio_simple lib t fs p).1 = .ok (d, t) ∧
      d.map Prod.fst =
        ["vocals", "drums", "bass", "guitar", "piano", "flute", "strings",
         "background", "instrumental"] ∧
      ∀ e ∈ d, ∃ w, (separate_audio_simple lib t fs p).2.files e.2 = some w ∧
        w.sampleRate = 22050 := by
  obtain ⟨d, g, hok⟩ := separate_ok_of_regular lib t fs p y hreg hload (not_lt.mpr hdur)
  obtain ⟨-, y0, hl0, -, hdform, hread⟩ := separate_ok_inv lib t fs p d t g hok
  refine ⟨d, by rw [hok], ?_, ?_⟩
  · rw [hdform]
    simp [stemDefs]
  · intro e he
    rw [hdform] at he
    obtain ⟨e0, he0, heq⟩ := List.mem_map.mp he
    obtain ⟨w, hsig, hfile⟩ := hread e0 he0
    refine ⟨⟨w, 22050⟩, ?_, rfl⟩
    rw [hok, ← heq]
    exact hfile

/-- C1 (witness): with a regular library decoding half a second of silence,
the pipeline returns all nine stems. -/
theorem c1_witness :
    libHalfSec.load "song.wav" = .ok (List.replicate 11025 (0:ℚ)) ∧
    (1/2 : ℚ) ≤ ((List.replicate 11025 (0:ℚ)).length : ℚ) / 22050 ∧
    ∃ d, (separate_audio_simple libHalfSec "tmp" emptyFS "song.wav").1 = .ok (d, "tmp") ∧
      d.map Prod.fst =
        ["vocals", "drums", "bass", "guitar", "piano", "flute", "strings",
         "background", "instrumental"] ∧
      ∀ e ∈ d, ∃ w, (separate_audio_simple libHalfSec "tmp" emptyFS "song.wav").2.files e.2 =
          some w ∧ w.sampleRate = 22050 :=
  ⟨rfl, by simp only [List.length_replicate]; decide,
    c1_nine_stems libHalfSec "tmp" emptyFS "song.wav" _ (totalLib_regular _) rfl
      (by simp only [List.length_replicate]; decide)⟩

/-- C3: the separation stage is all-or-nothing — for every library behavior
and input, either the call succeeds with all nine stems, or it fails as a
whole with a single exception wrapping the root cause as
`Audio processing failed: <cause>`, returning no partial stem mapping. -/
theorem c3_all_or_nothing (lib : AudioLib) (t : String) (fs : FS) (p : String) :
    (∃ d g, separate_audio_simple lib t fs p = (.ok (d, t), g) ∧
      d.map Prod.fst =
        ["vocals", "drums", "bass", "guitar", "piano", "flute", "strings",
         "background", "instrumental"]) ∨
    (∃ e g, separate_audio_simple lib t fs p = (.error (wrapMsg e), g)) := by
  simp only [separate_audio_simple]
  split
  next e hl => exact Or.inr ⟨e, fs, rfl⟩
  next y hl =>
    split
    next hshort => exact Or.inr ⟨_, fs, rfl⟩
    next hshort =>
      split
      next e hh => exact Or.inr ⟨e, _, rfl⟩
      next yh yp hh =>
        split
        next e h1 => exact Or.inr ⟨e, _, rfl⟩
        next Sh ph h1 =>
          split
          next e h2 => exact Or.inr ⟨e, _, rfl⟩
          next Sp pp h2 =>
            split
            next dd fs2 hws =>
              refine Or.inl ⟨dd, fs2, rfl, ?_⟩
              obtain ⟨hshape, -, -⟩ := writeStems_ok_inv lib t Sh ph Sp pp stemDefs
                (fs.mkdir t) dd fs2 hws (by decide)
              rw [hshape]
              simp [stemDefs]
            next e fs2 hws => exact Or.inr ⟨e, fs2, rfl⟩

theorem libHpssFail_separate (t : String) (fs : FS) (p : String) :
    separate_audio_simple libHpssFail t fs p = (.error (wrapMsg "boom"), fs.mkdir t) := by
  have hdur : ¬ (((List.replicate 11025 (0:ℚ)).length : ℚ) / 22050 < 1/2) := by
    simp only [List.length_replicate]
    decide
  simp only [separate_audio_simple,
    show libHpssFail.load p = .ok (List.replicate 11025 (0:ℚ)) from rfl]
  rw [if_neg hdur]
  rfl

/-- C6 (counterexample): a decode failure does not surface as an error
distinguishable as a decode failure — it is the same generic
`Exception("Audio processing failed: <root message>")` as any other stage
failure.  A corrupt file whose decoder raises `boom` and a well-formed file
whose HPSS raises `boom` produce byte-identical exceptions, so no consumer of
the raised error can tell the decode failure apart. -/
theorem c6_cex_indistinguishable :
    (separate_audio_simple libDecodeFail "tmp" emptyFS "corrupt.mp3").1 =
        .error "Audio processing failed: boom" ∧
    (separate_audio_simple libHpssFail "tmp" emptyFS "song.mp3").1 =
        .error "Audio processing failed: boom" := by
  refine ⟨rfl, ?_⟩
  rw [libHpssFail_separate "tmp" emptyFS "song.mp3"]
  rfl

/-- C6 (amended): for every file whose contents cannot be parsed as audio
(the decoder raises), `separate_audio_simple` aborts and raises the generic
wrapper `Audio processing failed: <decoder message>`; the code attaches no
decode-specific marker of its own, so the failure is identifiable as a decode
failure only through the third-party decoder message it embeds. -/
theorem c6_decode_error_wrapped (lib : AudioLib) (t : String) (fs : FS) (p e : String)
    (h : lib.load p = .error e) :
    separate_audio_simple lib t fs p = (.error ("Audio processing failed: " ++ e), fs) :=
  separate_load_error lib t fs p e h

/-- C6 (witness): the corrupt-file library raises `boom` and the pipeline
surfaces the generic wrapper around it. -/
theorem c6_witness :
    libDecodeFail.load "corrupt.mp3" = .error "boom" ∧
    separate_audio_simple libDecodeFail "tmp2" emptyFS "corrupt.mp3" =
      (.error ("Audio processing failed: " ++ "boom"), emptyFS) :=
  ⟨rfl, c6_decode_error_wrapped libDecodeFail "tmp2" emptyFS "corrupt.mp3" "boom" rfl⟩

/-- C7: the pipeline is deterministic and depends on nothing but the decoded
audio (given one fixed library behavior): two successful calls whose decodes
agree — regardless of input path, temp-dir name, or prior filesystem state —
produce the same stem names and, for every stem definition, numerically
identical written waveforms at 22050 Hz; no step consults randomness. -/
theorem c7_deterministic (lib : AudioLib) (t1 t2 : String) (fs1 fs2 : FS) (p1 p2 : String)
    (d1 d2 : List (String × String)) (dir1 dir2 : String) (g1 g2 : FS)
    (h1 : separate_audio_simple lib t1 fs1 p1 = (.ok (d1, dir1), g1))
    (h2 : separate_audio_simple lib t2 fs2 p2 = (.ok (d2, dir2), g2))
    (hload : lib.load p1 = lib.load p2) :
    d1.map Prod.fst = d2.map Prod.fst ∧
    ∀ n mask perc, (n, mask, perc) ∈ stemDefs →
      ∃ w, g1.files (dir1 ++ "/" ++ n ++ ".wav") = some ⟨w, 22050⟩ ∧
           g2.files (dir2 ++ "/" ++ n ++ ".wav") = some ⟨w, 22050⟩ := by
  obtain ⟨hdir1, y1, hl1, -, hd1, hr1⟩ := separate_ok_inv lib t1 fs1 p1 d1 dir1 g1 h1
  obtain ⟨hdir2, y2, hl2, -, hd2, hr2⟩ := separate_ok_inv lib t2 fs2 p2 d2 dir2 g2 h2
  rw [hl1, hl2] at hload
  have hy : y1 = y2 := Except.ok.inj hload
  subst hy
  constructor
  · rw [hd1, hd2]
    simp
  · intro n mask perc hmem
    obtain ⟨w, hsig1, hfile1⟩ := hr1 (n, mask, perc) hmem
    obtain ⟨w2, hsig2, hfile2⟩ := hr2 (n, mask, perc) hmem
    have hw : w = w2 := Except.ok.inj (hsig1.symm.trans hsig2)
    subst hw
    subst hdir1
    subst hdir2
    exact ⟨w, hfile1, hfile2⟩

/-- C7 (witness): two runs over different paths and different temp dirs whose
decodes agree produce the same stem names and the identical vocals waveform. -/
theorem c7_witness :
    libHalfSec.load "a.wav" = libHalfSec.load "b.wav" ∧
    ∃ d1 d2 g1 g2,
      separate_audio_simple libHalfSec "t1" emptyFS "a.wav" = (.ok (d1, "t1"), g1) ∧
      separate_audio_simple libHalfSec "t2" emptyFS "b.wav" = (.ok (d2, "t2"), g2) ∧
      d1.map Prod.fst = d2.map Prod.fst ∧
      ∃ w, g1.files ("t1" ++ "/" ++ "vocals" ++ ".wav") = some ⟨w, 22050⟩ ∧
           g2.files ("t2" ++ "/" ++ "vocals" ++ ".wav") = some ⟨w, 22050⟩ := by
  refine ⟨rfl, ?_⟩
  have hdur : ¬ (((List.replicate 11025 (0:ℚ)).length : ℚ) / 22050 < 1/2) := by
    simp only [List.length_replicate]
    decide
  obtain ⟨d1, g1, h1⟩ := separate_ok_of_regular libHalfSec "t1" emptyFS "a.wav" _
    (totalLib_regular _) rfl hdur
  obtain ⟨d2, g2, h2⟩ := separate_ok_of_regular libHalfSec "t2" emptyFS "b.wav" _
    (totalLib_regular _) rfl hdur
  have h := c7_deterministic libHalfSec "t1" "t2" emptyFS emptyFS "a.wav" "b.wav"
    d1 d2 "t1" "t2" g1 g2 h1 h2 rfl
  obtain ⟨w, hw1, hw2⟩ := h.2 "vocals" vocal_mask false (by simp [stemDefs])
  exact ⟨d1, d2, g1, g2, h1, h2, h.1, w, hw1, hw2⟩

/-- C9: the claim that the per-stem temp directory is deleted before
`process_and_upload` returns on every failure path is violated by the code:
when separation fails after `tempfile.mkdtemp` (here: HPSS raises), the local
`temp_dir` in `process_and_upload` is still `None`, the `finally` clause
skips `shutil.rmtree`, and the directory created inside
`separate_audio_simple` survives the call. -/
theorem c9_temp_dir_leak :
    (process_and_upload libHpssFail upW cfgW "tmpdir" "now" emptyFS "in.wav" "proj" "user").1 =
      .error "Processing failed: Audio processing failed: boom" ∧
    (process_and_upload libHpssFail upW cfgW "tmpdir" "now" emptyFS
        "in.wav" "proj" "user").2.dirs "tmpdir" = true := by
  have hsep := libHpssFail_separate "tmpdir" emptyFS "in.wav"
  constructor
  · simp only [process_and_upload, hsep]
    rfl
  · simp only [process_and_upload, hsep]
    rfl

/-- C8: in the upload loop, one stem failing to upload is non-fatal — that
stem is recorded as `url: None` with the exception message in `error`, every
sibling stem keeps its own entry (the loop continues), stems whose upload
succeeded keep their response fields including the URL, and the failed stem
never appears in the `successful_stems` subset `app.py` returns. -/
theorem c8_upload_partial_failure (up : Uploader) (cfg : CloudConfig) (fs : FS)
    (user_id project_id now : String) (stems : List (String × String)) (n p e : String)
    (hnd : (stems.map Prod.fst).Nodup)
    (hmem : (n, p) ∈ stems)
    (hex : (fs.files p).isNone = false)
    (hfail : upload_to_cloudinary up cfg fs p (stemPublicId user_id project_id n now) =
      .error e) :
    (n, failEntry e) ∈ uploadLoop up cfg fs user_id project_id now stems ∧
    (uploadLoop up cfg fs user_id project_id now stems).map Prod.fst = stems.map Prod.fst ∧
    (∀ f : FormattedStem,
      (n, f) ∉ successful_stems
        (format_results (uploadLoop up cfg fs user_id project_id now stems))) ∧
    (∀ m q r, (m, q) ∈ stems → (fs.files q).isNone = false →
      upload_to_cloudinary up cfg fs q (stemPublicId user_id project_id m now) = .ok r →
      (m, (⟨r.secure_url, r.public_id, r.format, r.bytes, none⟩ : StemEntry)) ∈
        uploadLoop up cfg fs user_id project_id now stems) := by
  refine ⟨uploadLoop_mem_fail up cfg fs user_id project_id now stems n p e hmem hex hfail,
    uploadLoop_map_fst up cfg fs user_id project_id now stems, ?_,
    fun m q r hm hq hr => uploadLoop_mem_ok up cfg fs user_id project_id now stems m q r hm hq hr⟩
  intro f hf
  have hmem2 := List.mem_of_mem_filter hf
  have htr : truthy f.url = true := by simpa using List.of_mem_filter hf
  obtain ⟨⟨m0, entry⟩, hin, heq⟩ := List.mem_map.mp hmem2
  rw [Prod.mk.injEq] at heq
  obtain ⟨hm0, hf2⟩ := heq
  have hm0' : m0 = n := hm0
  rw [hm0'] at hin
  have hndR : ((uploadLoop up cfg fs user_id project_id now stems).map Prod.fst).Nodup := by
    rw [uploadLoop_map_fst]
    exact hnd
  have hent : entry = failEntry e :=
    mem_assoc_unique _ hndR n entry (failEntry e) hin
      (uploadLoop_mem_fail up cfg fs user_id project_id now stems n p e hmem hex hfail)
  rw [← hf2] at htr
  rw [hent] at htr
  simp [truthy, failEntry] at htr

/-- C8 (witness): with two stems on disk, an uploader that fails on the
vocals file with a network error and succeeds on the drums file yields a
vocals entry carrying the classified error and no URL, keeps the drums entry
with its URL, and excludes vocals from the successful subset. -/
theorem c8_witness :
    (("vocals", "/t/vocals.wav") ∈ stemsW) ∧
    upload_to_cloudinary upW cfgW fsW "/t/vocals.wav" (stemPublicId "u" "p" "vocals" "now") =
      .error "Cloudinary upload failed: network down" ∧
    (("vocals", failEntry "Cloudinary upload failed: network down") ∈
      uploadLoop upW cfgW fsW "u" "p" "now" stemsW) ∧
    (uploadLoop upW cfgW fsW "u" "p" "now" stemsW).map Prod.fst = stemsW.map Prod.fst ∧
    (∀ f : FormattedStem,
      ("vocals", f) ∉ successful_stems (format_results (uploadLoop upW cfgW fsW "u" "p" "now" stemsW))) ∧
    (("drums", (⟨respW.secure_url, respW.public_id, respW.format, respW.bytes, none⟩ : StemEntry)) ∈
      uploadLoop upW cfgW fsW "u" "p" "now" stemsW) := by
  have hfail : upload_to_cloudinary upW cfgW fsW "/t/vocals.wav"
      (stemPublicId "u" "p" "vocals" "now") = .error "Cloudinary upload failed: network down" := by
    rfl
  have h := c8_upload_partial_failure upW cfgW fsW "u" "p" "now" stemsW "vocals"
    "/t/vocals.wav" "Cloudinary upload failed: network down" (by decide) (by decide) rfl hfail
  have hok : upload_to_cloudinary upW cfgW fsW "/t/drums.wav"
      (stemPublicId "u" "p" "drums" "now") = .ok respW := by rfl
  exact ⟨by decide, hfail, h.1, h.2.1, h.2.2.1,
    h.2.2.2 "drums" "/t/drums.wav" respW (by decide) rfl hok⟩
